import Mathlib

/-!
Verification of the `accounts` app of the EyeWear-Store-Api repository.

The development shallowly embeds `src/accounts/models.py` (the
`CustomUserManager` with `create_user` / `create_superuser` and the
`CustomUser` model) and `src/accounts/forms.py` (the creation form and the
change form).  Persistence is modelled as a list of persisted user records
with storage-level uniqueness constraints on `email` and `phone`; time is an
abstract `Nat` so that `auto_now` / `default=timezone.now` stamping is
explicit.  Host-framework behavior that the source delegates to (email
normalization, one-way password hashing, save semantics) is modelled
faithfully to the framework's documented behavior, as described by the spec.
-/

/-- Errors surfaced to the caller: the two `ValueError`s raised in
`models.py` and the storage-layer uniqueness violations. -/
inductive Err where
  | emailRequired
  | staffRequired
  | superuserRequired
  | uniqueEmail
  | uniquePhone
deriving Repr, DecidableEq

/-- One persisted `CustomUser` record (`models.py`, class `CustomUser`).
Field defaults mirror the model: `is_staff` defaults to false, `is_active`
to true, `is_superuser` to false (from `PermissionsMixin`); `last_login` is
`none` until a save stamps it (`auto_now=True`). -/
structure CustomUser where
  name : String := ""
  email : String := ""
  phone : String := ""
  is_staff : Bool := false
  is_active : Bool := true
  is_superuser : Bool := false
  date_joined : Nat := 0
  last_login : Option Nat := none
  password : String := ""
deriving Repr, DecidableEq, Inhabited

/-- The keyword arguments a caller may pass through `**extra_fields`:
`none` means the keyword was not passed. -/
structure ExtraFields where
  name : Option String := none
  phone : Option String := none
  is_staff : Option Bool := none
  is_superuser : Option Bool := none
  is_active : Option Bool := none
deriving Repr, DecidableEq

/-- The persisted table of user records. -/
structure DB where
  users : List CustomUser
deriving Repr, DecidableEq

/-- Python `str.strip()` on a character list: drop whitespace at both ends. -/
def stripChars (l : List Char) : List Char :=
  ((l.dropWhile Char.isWhitespace).reverse.dropWhile Char.isWhitespace).reverse

/-- Python `s.rsplit("@", 1)` restricted to the two-part case: split a
character list at its LAST `'@'`; `none` when there is no `'@'` (the
`ValueError` branch of `normalize_email`). -/
def splitLastAmp : List Char → Option (List Char × List Char)
  | [] => none
  | c :: cs =>
    match splitLastAmp cs with
    | some (l, r) => some (c :: l, r)
    | none => if c = '@' then some ([], cs) else none

/-- Per-character lower-casing of a string (Python `str.lower()`). -/
def lowerStr (s : String) : String :=
  ⟨s.data.map Char.toLower⟩

/-- Modelled from the spec: the host framework's `BaseUserManager.normalize_email`
(the source calls it but does not define it).  Per standard email
normalization it strips surrounding whitespace, splits at the last `'@'`,
lower-cases the domain part and keeps the local part; a string with no
`'@'` is returned unchanged. -/
def normalize_email (email : String) : String :=
  match splitLastAmp (stripChars email.data) with
  | none => email
  | some (l, r) => ⟨l ++ '@' :: r.map Char.toLower⟩

/-- Modelled from the spec: the host framework's one-way password hash
(`set_password` delegates to it; the spec treats the hashing algorithm as
out of scope, so only its interface is modelled: hashing is marked by a
scheme tag, mirroring the `algorithm$...` shape of stored hashes). -/
def make_password (raw : String) : String :=
  "hashed$" ++ raw

/-- Modelled from the spec: verification of a plaintext guess against a
stored hash (the host framework's `check_password`). -/
def check_password (raw stored : String) : Bool :=
  stored == make_password raw

/-- A stored credential is in hashed form when it carries the scheme tag. -/
def isHashed (stored : String) : Bool :=
  stored.data.take 7 == ("hashed$").data

/-- `user.set_password(password)`: store the one-way hash, never the raw
password. -/
def set_password (u : CustomUser) (raw : String) : CustomUser :=
  { u with password := make_password raw }

/-- `self.model(email=email, **extra_fields)`: instantiate a `CustomUser`
with the given email, the passed extra fields, and model defaults for the
rest; `date_joined` gets `timezone.now` (its model default) at
instantiation time. -/
def newUser (now : Nat) (email : String) (extra : ExtraFields) : CustomUser :=
  { name := extra.name.getD ""
    email := email
    phone := extra.phone.getD ""
    is_staff := extra.is_staff.getD false
    is_active := extra.is_active.getD true
    is_superuser := extra.is_superuser.getD false
    date_joined := now
    last_login := none
    password := "" }

/-- Modelled from the spec: `user.save()` on a new record.  The storage
engine enforces the `unique=True` constraints on `email` and `phone`
(spec section 5); `auto_now=True` on `last_login` stamps the save time on
every save.  On success the stamped record is appended and also returned,
as the saved Python instance reflects the stamp. -/
def DB.insert (db : DB) (now : Nat) (u : CustomUser) : Except Err (CustomUser × DB) :=
  if db.users.any (fun v => v.email == u.email) then .error .uniqueEmail
  else if db.users.any (fun v => v.phone == u.phone) then .error .uniquePhone
  else
    let u' := { u with last_login := some now }
    .ok (u', ⟨db.users ++ [u']⟩)

/-- Modelled from the spec: `user.save()` on an existing record (row `idx`).
Uniqueness is checked against every other row; `auto_now=True` stamps
`last_login` with the save time. -/
def DB.updateAt (db : DB) (now : Nat) (idx : Nat) (u : CustomUser) : Except Err DB :=
  if (db.users.eraseIdx idx).any (fun v => v.email == u.email) then .error .uniqueEmail
  else if (db.users.eraseIdx idx).any (fun v => v.phone == u.phone) then .error .uniquePhone
  else .ok ⟨db.users.set idx { u with last_login := some now }⟩

/-- `CustomUserManager.create_user` (`models.py`): reject an empty email,
normalize the email, instantiate the model with the extra fields, hash the
password via `set_password`, save, and return the saved user. -/
def create_user (db : DB) (now : Nat) (email password : String)
    (extra : ExtraFields) : Except Err (CustomUser × DB) :=
  if email = "" then .error .emailRequired
  else
    let email := normalize_email email
    let user := newUser now email extra
    let user := set_password user password
    db.insert now user

/-- The three `setdefault` calls of `create_superuser`: flags not passed by
the caller default to true. -/
def ExtraFields.setdefaultFlags (extra : ExtraFields) : ExtraFields :=
  { extra with
    is_staff := some (extra.is_staff.getD true)
    is_superuser := some (extra.is_superuser.getD true)
    is_active := some (extra.is_active.getD true) }

/-- `CustomUserManager.create_superuser` (`models.py`): default the three
flags to true, reject `is_staff` or `is_superuser` not being true, then
delegate to `create_user`. -/
def create_superuser (db : DB) (now : Nat) (email password : String)
    (extra : ExtraFields) : Except Err (CustomUser × DB) :=
  let extra := extra.setdefaultFlags
  if extra.is_staff ≠ some true then .error .staffRequired
  else if extra.is_superuser ≠ some true then .error .superuserRequired
  else create_user db now email password extra

/-- The regex `^09\d{9}$` of the `phone` field's `RegexValidator`: the
characters `0`, `9`, then exactly nine digits. -/
def phoneRegexMatch (s : String) : Bool :=
  match s.data with
  | '0' :: '9' :: rest => rest.length == 9 && rest.all Char.isDigit
  | _ => false

/-- Cleaned input of `CustomUserCreationForm`: the three `Meta.fields`
plus the two password fields contributed by the base `UserCreationForm`. -/
structure CreationInput where
  email : String
  name : String
  phone : String
  password1 : String
  password2 : String
deriving Repr, DecidableEq

/-- Modelled from the spec: the validation the host form framework runs
before `save` may be called — required fields non-empty, the phone
`RegexValidator`, equality of the two password fields, and
`validate_unique` against the persisted table. -/
def creationFormValid (db : DB) (i : CreationInput) : Bool :=
  !(i.email == "") && !(i.name == "") && phoneRegexMatch i.phone &&
  (i.password1 == i.password2) && !(i.password1 == "") &&
  !(db.users.any (fun v => v.email == i.email)) &&
  !(db.users.any (fun v => v.phone == i.phone))

/-- `CustomUserCreationForm.save` (`forms.py`): the base `UserCreationForm`
builds the instance from the cleaned `Meta.fields` and hashes `password1`;
the override then copies `name` and `phone` from `cleaned_data` onto the
instance, saves only when `commit` is true, and returns the instance
either way. -/
def creationForm_save (db : DB) (now : Nat) (i : CreationInput)
    (commit : Bool) : Except Err (CustomUser × DB) :=
  let user := newUser now i.email { name := some i.name, phone := some i.phone }
  let user := set_password user i.password1
  let user := { user with name := i.name, phone := i.phone }
  if commit then db.insert now user
  else .ok (user, db)

/-- The `Meta.fields` tuple of `CustomUserCreationForm`. -/
def customUserCreationForm_fields : List String :=
  ["email", "name", "phone"]

/-- Cleaned input of `CustomUserChangeForm`'s editable scalar fields
(`user_permissions`, a many-to-many field, carries no scalar value on the
record). -/
structure ChangeInput where
  email : String
  name : String
  phone : String
  is_active : Bool
  is_staff : Bool
  is_superuser : Bool
deriving Repr, DecidableEq

/-- Apply the cleaned change-form data to the bound instance in place. -/
def changeForm_apply (u : CustomUser) (i : ChangeInput) : CustomUser :=
  { u with
    email := i.email
    name := i.name
    phone := i.phone
    is_active := i.is_active
    is_staff := i.is_staff
    is_superuser := i.is_superuser }

/-- Modelled from the spec: validation the host form framework runs for the
change form — required fields non-empty, the phone `RegexValidator`, and
`validate_unique` against every other persisted row. -/
def changeFormValid (db : DB) (idx : Nat) (i : ChangeInput) : Bool :=
  !(i.email == "") && !(i.name == "") && phoneRegexMatch i.phone &&
  !((db.users.eraseIdx idx).any (fun v => v.email == i.email)) &&
  !((db.users.eraseIdx idx).any (fun v => v.phone == i.phone))

/-- `CustomUserChangeForm` save: a model form bound to the existing row
`idx` updates that row in place. -/
def changeForm_save (db : DB) (now : Nat) (idx : Nat) (i : ChangeInput) :
    Except Err DB :=
  db.updateAt now idx (changeForm_apply (db.users.getD idx default) i)

/-- The `Meta.fields` tuple of `CustomUserChangeForm` (`forms.py`). -/
def customUserChangeForm_fields : List String :=
  ["email", "name", "phone", "is_active", "is_staff", "is_superuser",
   "user_permissions"]

/-- Storage-level uniqueness invariant: no two persisted rows share an
email, and no two share a phone. -/
def DB.uniqueInv (db : DB) : Prop :=
  (db.users.map CustomUser.email).Nodup ∧ (db.users.map CustomUser.phone).Nodup

/-- Every persisted row's phone matches `^09\d{9}$` and is non-empty. -/
def DB.phoneInv (db : DB) : Prop :=
  ∀ u ∈ db.users, phoneRegexMatch u.phone = true ∧ u.phone ≠ ""

/-- Every persisted row's credential is in hashed form. -/
def DB.allHashed (db : DB) : Prop :=
  ∀ u ∈ db.users, isHashed u.password = true

example : create_user ⟨[]⟩ 0 "A@b.Com" "pw"
    { name := some "n", phone := some "09123456789" } =
    .ok ({ name := "n", email := "A@b.com", phone := "09123456789",
           is_staff := false, is_active := true, is_superuser := false,
           date_joined := 0, last_login := some 0,
           password := "hashed$pw" },
         ⟨[{ name := "n", email := "A@b.com", phone := "09123456789",
             date_joined := 0, last_login := some 0,
             password := "hashed$pw" }]⟩) := by rfl

example : phoneRegexMatch "09123456789" = true := by decide
example : phoneRegexMatch "0912345678" = false := by decide
example : phoneRegexMatch "12345678901" = false := by decide
example : normalize_email " Local@DOM.Com " = "Local@dom.com" := by rfl
example : normalize_email "nodomain" = "nodomain" := by rfl

/-! ### Helper lemmas about the persistence layer -/

theorem map_eraseIdx_comm {α β : Type} (f : α → β) :
    ∀ (l : List α) (i : Nat), (l.eraseIdx i).map f = (l.map f).eraseIdx i
  | [], _ => rfl
  | _ :: _, 0 => rfl
  | a :: l, i + 1 => by
      simp only [List.eraseIdx, List.map_cons]
      rw [map_eraseIdx_comm f l i]

theorem mem_set_cases {α : Type} :
    ∀ (l : List α) (i : Nat) (a v : α), v ∈ l.set i a →
      (i < l.length ∧ v = a) ∨ v ∈ l
  | [], i, a, v, h => by simp at h
  | x :: xs, 0, a, v, h => by
      simp only [List.set] at h
      rcases List.mem_cons.mp h with h | h
      · exact .inl ⟨by simp, h⟩
      · exact .inr (List.mem_cons_of_mem x h)
  | x :: xs, i + 1, a, v, h => by
      simp only [List.set] at h
      rcases List.mem_cons.mp h with h | h
      · exact .inr (by simp [h])
      · rcases mem_set_cases xs i a v h with ⟨hl, he⟩ | hm
        · exact .inl ⟨Nat.succ_lt_succ hl, he⟩
        · exact .inr (List.mem_cons_of_mem x hm)

theorem nodup_set_of_not_mem_eraseIdx {α : Type} :
    ∀ (l : List α) (i : Nat) (b : α), l.Nodup → b ∉ l.eraseIdx i →
      (l.set i b).Nodup
  | [], _, _, _, _ => List.nodup_nil
  | x :: xs, 0, b, hnd, hb => by
      simp only [List.eraseIdx] at hb
      simp only [List.set, List.nodup_cons]
      exact ⟨hb, (List.nodup_cons.mp hnd).2⟩
  | x :: xs, i + 1, b, hnd, hb => by
      simp only [List.eraseIdx, List.mem_cons, not_or] at hb
      obtain ⟨hnx, hnd'⟩ := List.nodup_cons.mp hnd
      simp only [List.set, List.nodup_cons]
      refine ⟨?_, nodup_set_of_not_mem_eraseIdx xs i b hnd' hb.2⟩
      intro hmem
      rcases mem_set_cases xs i b x hmem with ⟨_, he⟩ | hm
      · exact hb.1 he.symm
      · exact hnx hm

theorem insert_ok {db : DB} {now : Nat} {u u' : CustomUser} {db' : DB}
    (h : db.insert now u = .ok (u', db')) :
    u' = { u with last_login := some now } ∧
    db'.users = db.users ++ [u'] ∧
    (∀ v ∈ db.users, v.email ≠ u.email ∧ v.phone ≠ u.phone) := by
  by_cases h1 : db.users.any (fun v => v.email == u.email) = true
  · rw [DB.insert, if_pos h1] at h
    exact Except.noConfusion h
  · by_cases h2 : db.users.any (fun v => v.phone == u.phone) = true
    · rw [DB.insert, if_neg h1, if_pos h2] at h
      exact Except.noConfusion h
    · rw [DB.insert, if_neg h1, if_neg h2] at h
      simp only [Except.ok.injEq, Prod.mk.injEq] at h
      obtain ⟨hu, hdb⟩ := h
      refine ⟨hu.symm, by rw [← hdb, hu], ?_⟩
      intro v hv
      simp only [List.any_eq_true, not_exists, not_and] at h1 h2
      exact ⟨by simpa using h1 v hv, by simpa using h2 v hv⟩

theorem insert_error {db : DB} {now : Nat} {u : CustomUser} {e : Err}
    (h : db.insert now u = .error e) : e = .uniqueEmail ∨ e = .uniquePhone := by
  by_cases h1 : db.users.any (fun v => v.email == u.email) = true
  · rw [DB.insert, if_pos h1] at h
    exact .inl (Except.error.inj h).symm
  · by_cases h2 : db.users.any (fun v => v.phone == u.phone) = true
    · rw [DB.insert, if_neg h1, if_pos h2] at h
      exact .inr (Except.error.inj h).symm
    · rw [DB.insert, if_neg h1, if_neg h2] at h
      exact Except.noConfusion h

theorem create_user_ok {db : DB} {now : Nat} {email password : String}
    {extra : ExtraFields} {u : CustomUser} {db' : DB}
    (h : create_user db now email password extra = .ok (u, db')) :
    email ≠ "" ∧
    u = { name := extra.name.getD "", email := normalize_email email,
          phone := extra.phone.getD "", is_staff := extra.is_staff.getD false,
          is_active := extra.is_active.getD true,
          is_superuser := extra.is_superuser.getD false,
          date_joined := now, last_login := some now,
          password := make_password password } ∧
    db'.users = db.users ++ [u] ∧
    (∀ v ∈ db.users, v.email ≠ normalize_email email) := by
  by_cases he : email = ""
  · rw [create_user, if_pos he] at h
    exact Except.noConfusion h
  · rw [create_user, if_neg he] at h
    obtain ⟨hu, hdb, hmem⟩ := insert_ok h
    refine ⟨he, ?_, hdb, fun v hv => (hmem v hv).1⟩
    rw [hu]
    rfl

example (db : DB) (now : Nat) (p : String) (e : ExtraFields) :
    create_user db now "" p e = .error .emailRequired := rfl

/-! ### C1: behavior of `create_user` -/

/-- C1: `create_user` with an empty email fails with the `Email must be set`
validation error, creating no record; with a non-empty email that reaches a
successful save, the returned persisted user carries the normalized email,
the one-way hash of the password, the remaining extra fields (with model
defaults for those not passed), and is appended to the table. -/
theorem create_user_spec (db : DB) (now : Nat) (email password : String)
    (extra : ExtraFields) (u : CustomUser) (db' : DB) :
    create_user db now "" password extra = .error .emailRequired ∧
    (email ≠ "" → create_user db now email password extra = .ok (u, db') →
      u.email = normalize_email email ∧
      u.password = make_password password ∧
      u.name = extra.name.getD "" ∧
      u.phone = extra.phone.getD "" ∧
      u.is_staff = extra.is_staff.getD false ∧
      u.is_active = extra.is_active.getD true ∧
      u.is_superuser = extra.is_superuser.getD false ∧
      db'.users = db.users ++ [u]) := by
  refine ⟨rfl, ?_⟩
  intro _ h
  obtain ⟨_, hu, hdb, _⟩ := create_user_ok h
  subst hu
  exact ⟨rfl, rfl, rfl, rfl, rfl, rfl, rfl, hdb⟩

def c1User : CustomUser :=
  { name := "n", email := "A@b.com", phone := "09123456789",
    date_joined := 0, last_login := some 0, password := "hashed$pw" }

/-- Witness for C1 at a concrete input. -/
theorem create_user_spec_witness :
    ("A@b.Com" : String) ≠ "" ∧
    create_user ⟨[]⟩ 0 "A@b.Com" "pw"
      ⟨some "n", some "09123456789", none, none, none⟩ = .ok (c1User, ⟨[c1User]⟩) ∧
    (c1User.email = normalize_email "A@b.Com" ∧
     c1User.password = make_password "pw" ∧
     c1User.name = (some "n").getD "" ∧
     c1User.phone = (some "09123456789").getD "" ∧
     c1User.is_staff = (none : Option Bool).getD false ∧
     c1User.is_active = (none : Option Bool).getD true ∧
     c1User.is_superuser = (none : Option Bool).getD false ∧
     (DB.mk [c1User]).users = (DB.mk []).users ++ [c1User]) :=
  ⟨by decide, by rfl,
   (create_user_spec ⟨[]⟩ 0 "A@b.Com" "pw"
      ⟨some "n", some "09123456789", none, none, none⟩ c1User ⟨[c1User]⟩).2
     (by decide) (by rfl)⟩

/-! ### C2: behavior of `create_superuser` -/

/-- C2: `create_superuser` defaults `is_staff`, `is_superuser` and
`is_active` to true when not passed; an explicitly passed `is_staff=False`
(or `is_superuser=False`) makes it fail with the corresponding validation
error before anything is persisted (the error carries no record); otherwise
it delegates to `create_user` with the defaulted fields and returns its
result. -/
theorem create_superuser_spec (db : DB) (now : Nat) (email password : String)
    (extra : ExtraFields) :
    (extra.is_staff = some false →
      create_superuser db now email password extra = .error .staffRequired) ∧
    (extra.is_staff ≠ some false → extra.is_superuser = some false →
      create_superuser db now email password extra = .error .superuserRequired) ∧
    (extra.is_staff ≠ some false → extra.is_superuser ≠ some false →
      create_superuser db now email password extra =
        create_user db now email password extra.setdefaultFlags) ∧
    (extra.is_staff = none → extra.setdefaultFlags.is_staff = some true) ∧
    (extra.is_superuser = none → extra.setdefaultFlags.is_superuser = some true) ∧
    (extra.is_active = none → extra.setdefaultFlags.is_active = some true) := by
  have hstaff : extra.is_staff ≠ some false → extra.is_staff.getD true = true := by
    rcases hs : extra.is_staff with _ | b
    · intro _; rfl
    · cases b
      · intro h; exact absurd rfl h
      · intro _; rfl
  have hsup : extra.is_superuser ≠ some false → extra.is_superuser.getD true = true := by
    rcases hs : extra.is_superuser with _ | b
    · intro _; rfl
    · cases b
      · intro h; exact absurd rfl h
      · intro _; rfl
  refine ⟨?_, ?_, ?_, ?_, ?_, ?_⟩
  · intro h
    simp [create_superuser, ExtraFields.setdefaultFlags, h]
  · intro h1 h2
    simp [create_superuser, ExtraFields.setdefaultFlags, h2, hstaff h1]
  · intro h1 h2
    simp [create_superuser, ExtraFields.setdefaultFlags, hstaff h1, hsup h2]
  · intro h
    simp [ExtraFields.setdefaultFlags, h]
  · intro h
    simp [ExtraFields.setdefaultFlags, h]
  · intro h
    simp [ExtraFields.setdefaultFlags, h]

/-- Witness for C2 at concrete inputs: an explicit `is_staff=False` is
rejected with no record created, and a call with no flags defaults all
three to true and delegates. -/
theorem create_superuser_spec_witness :
    (({ is_staff := some false } : ExtraFields).is_staff = some false) ∧
    create_superuser ⟨[]⟩ 0 "a@b.com" "x" { is_staff := some false } =
      .error .staffRequired ∧
    create_superuser ⟨[]⟩ 0 "a@b.com" "x" ({} : ExtraFields) =
      create_user ⟨[]⟩ 0 "a@b.com" "x" ({} : ExtraFields).setdefaultFlags :=
  ⟨rfl,
   (create_superuser_spec ⟨[]⟩ 0 "a@b.com" "x" { is_staff := some false }).1 rfl,
   (create_superuser_spec ⟨[]⟩ 0 "a@b.com" "x" ({} : ExtraFields)).2.2.1
     (by decide) (by decide)⟩

/-! ### C10: `create_superuser` with an explicit `is_active=False` -/

/-- C10: `create_superuser` does not check `is_active`: passing
`is_active=False` explicitly (with the other flags not passed) does not
trigger the flag validation, the call delegates to `create_user` with
`is_staff` and `is_superuser` defaulted to true, and a successful call
persists an inactive superuser. -/
theorem create_superuser_inactive_spec (db : DB) (now : Nat)
    (email password name phone : String) (u : CustomUser) (db' : DB) :
    create_superuser db now email password
        ⟨some name, some phone, none, none, some false⟩ =
      create_user db now email password
        ⟨some name, some phone, some true, some true, some false⟩ ∧
    (create_superuser db now email password
        ⟨some name, some phone, none, none, some false⟩ = .ok (u, db') →
      u.is_staff = true ∧ u.is_superuser = true ∧ u.is_active = false ∧
      u ∈ db'.users) := by
  have hdeleg : create_superuser db now email password
      ⟨some name, some phone, none, none, some false⟩ =
      create_user db now email password
        ⟨some name, some phone, some true, some true, some false⟩ := by
    simp [create_superuser, ExtraFields.setdefaultFlags]
  refine ⟨hdeleg, ?_⟩
  intro h
  rw [hdeleg] at h
  obtain ⟨_, hu, hdb, _⟩ := create_user_ok h
  subst hu
  exact ⟨rfl, rfl, rfl, by simp [hdb]⟩

def c10User : CustomUser :=
  { name := "n", email := "a@b.com", phone := "09123456789",
    is_staff := true, is_active := false, is_superuser := true,
    date_joined := 0, last_login := some 0, password := "hashed$x" }

/-- Witness for C10 at a concrete input: the call succeeds and persists an
inactive superuser. -/
theorem create_superuser_inactive_spec_witness :
    create_superuser ⟨[]⟩ 0 "a@b.com" "x"
        ⟨some "n", some "09123456789", none, none, some false⟩ =
      .ok (c10User, ⟨[c10User]⟩) ∧
    (c10User.is_staff = true ∧ c10User.is_superuser = true ∧
     c10User.is_active = false ∧ c10User ∈ (DB.mk [c10User]).users) :=
  ⟨by rfl,
   (create_superuser_inactive_spec ⟨[]⟩ 0 "a@b.com" "x" "n" "09123456789"
      c10User ⟨[c10User]⟩).2 (by rfl)⟩

/-! ### Helper lemmas about hashing and the save paths -/

theorem make_password_ne (raw : String) : make_password raw ≠ raw := by
  intro h
  have hlen := congrArg String.length h
  rw [make_password, String.length_append] at hlen
  have h7 : ("hashed$" : String).length = 7 := rfl
  omega

theorem isHashed_make_password (raw : String) :
    isHashed (make_password raw) = true := by
  have htake : ("hashed$" ++ raw).data.take 7 = ("hashed$").data := by
    rw [String.data_append]
    exact List.take_left ("hashed$").data raw.data
  simp [isHashed, make_password, htake]

theorem check_password_make (raw : String) :
    check_password raw (make_password raw) = true := by
  simp [check_password]

theorem updateAt_ok {db : DB} {now idx : Nat} {u : CustomUser} {db' : DB}
    (h : db.updateAt now idx u = .ok db') :
    db'.users = db.users.set idx { u with last_login := some now } ∧
    (∀ v ∈ db.users.eraseIdx idx, v.email ≠ u.email ∧ v.phone ≠ u.phone) := by
  by_cases h1 : (db.users.eraseIdx idx).any (fun v => v.email == u.email) = true
  · rw [DB.updateAt, if_pos h1] at h
    exact Except.noConfusion h
  · by_cases h2 : (db.users.eraseIdx idx).any (fun v => v.phone == u.phone) = true
    · rw [DB.updateAt, if_neg h1, if_pos h2] at h
      exact Except.noConfusion h
    · rw [DB.updateAt, if_neg h1, if_neg h2] at h
      simp only [Except.ok.injEq] at h
      refine ⟨by rw [← h], ?_⟩
      intro v hv
      simp only [List.any_eq_true, not_exists, not_and] at h1 h2
      exact ⟨by simpa using h1 v hv, by simpa using h2 v hv⟩

theorem create_user_allHashed {db : DB} {now : Nat} {email password : String}
    {extra : ExtraFields} {u : CustomUser} {db' : DB}
    (h : create_user db now email password extra = .ok (u, db'))
    (hdb : db.allHashed) : db'.allHashed := by
  obtain ⟨_, hu, husers, _⟩ := create_user_ok h
  intro v hv
  rw [husers] at hv
  rcases List.mem_append.mp hv with hv | hv
  · exact hdb v hv
  · rw [List.mem_singleton.mp hv, hu]
    exact isHashed_make_password password

theorem create_superuser_allHashed {db : DB} {now : Nat}
    {email password : String} {extra : ExtraFields} {u : CustomUser} {db' : DB}
    (h : create_superuser db now email password extra = .ok (u, db'))
    (hdb : db.allHashed) : db'.allHashed := by
  simp only [create_superuser] at h
  split at h
  · exact Except.noConfusion h
  · split at h
    · exact Except.noConfusion h
    · exact create_user_allHashed h hdb

theorem creationForm_save_allHashed {db : DB} {now : Nat} {i : CreationInput}
    {c : Bool} {u : CustomUser} {db' : DB}
    (h : creationForm_save db now i c = .ok (u, db'))
    (hdb : db.allHashed) : db'.allHashed := by
  cases c with
  | false =>
    simp only [creationForm_save, Bool.false_eq_true, if_false,
      Except.ok.injEq, Prod.mk.injEq] at h
    rw [← h.2]
    exact hdb
  | true =>
    simp only [creationForm_save, if_true] at h
    obtain ⟨hu', husers, _⟩ := insert_ok h
    intro v hv
    rw [husers] at hv
    rcases List.mem_append.mp hv with hv | hv
    · exact hdb v hv
    · rw [List.mem_singleton.mp hv, hu']
      exact isHashed_make_password i.password1

theorem changeForm_save_allHashed {db : DB} {now idx : Nat} {i : ChangeInput}
    {db' : DB} (h : changeForm_save db now idx i = .ok db')
    (hdb : db.allHashed) : db'.allHashed := by
  obtain ⟨husers, _⟩ := updateAt_ok h
  intro v hv
  rw [husers] at hv
  rcases mem_set_cases _ _ _ _ hv with ⟨hlt, he⟩ | hm
  · rw [he]
    show isHashed (db.users.getD idx default).password = true
    rw [List.getD_eq_getElem db.users default hlt]
    exact hdb _ (List.getElem_mem hlt)
  · exact hdb v hm

/-! ### C3: passwords are stored only as one-way hashes -/

/-- C3: a successful `create_user` with valid data stores a password that
differs from the plaintext, verifies against it, and is in hashed form; and
every operation (both manager paths and both form save paths) preserves the
invariant that no persisted record holds an unhashed password. -/
theorem create_user_password_spec (db : DB) (now : Nat)
    (email password name phone : String) (u : CustomUser) (db' : DB)
    (db2 : DB) (now2 : Nat) (e2 p2 : String) (ex2 : ExtraFields)
    (u2 : CustomUser) (db2' : DB)
    (db3 : DB) (now3 : Nat) (i3 : CreationInput) (c3 : Bool)
    (u3 : CustomUser) (db3' : DB)
    (db4 : DB) (now4 idx4 : Nat) (i4 : ChangeInput) (db4' : DB) :
    (phoneRegexMatch phone = true → email ≠ "" →
      create_user db now email password
          ⟨some name, some phone, none, none, none⟩ = .ok (u, db') →
      db.allHashed →
      u.password ≠ password ∧ check_password password u.password = true ∧
      isHashed u.password = true ∧ db'.allHashed) ∧
    (create_superuser db2 now2 e2 p2 ex2 = .ok (u2, db2') →
      db2.allHashed → db2'.allHashed) ∧
    (creationForm_save db3 now3 i3 c3 = .ok (u3, db3') →
      db3.allHashed → db3'.allHashed) ∧
    (changeForm_save db4 now4 idx4 i4 = .ok db4' →
      db4.allHashed → db4'.allHashed) := by
  refine ⟨?_, fun h hall => create_superuser_allHashed h hall,
    fun h hall => creationForm_save_allHashed h hall,
    fun h hall => changeForm_save_allHashed h hall⟩
  intro _ _ h hall
  obtain ⟨_, hu, _, _⟩ := create_user_ok h
  have hpw : u.password = make_password password := by rw [hu]
  refine ⟨?_, ?_, ?_, create_user_allHashed h hall⟩
  · rw [hpw]
    exact make_password_ne password
  · rw [hpw]
    exact check_password_make password
  · rw [hpw]
    exact isHashed_make_password password

def c3User : CustomUser :=
  { name := "n", email := "a@b.com", phone := "09123456789",
    date_joined := 0, last_login := some 0, password := "hashed$pw" }

def c3Super : CustomUser :=
  { name := "m", email := "c@d.com", phone := "09111111111",
    is_staff := true, is_active := true, is_superuser := true,
    date_joined := 0, last_login := some 0, password := "hashed$x" }

def c3FormUser : CustomUser :=
  { name := "k", email := "e@f.com", phone := "09222222222",
    date_joined := 0, last_login := some 0, password := "hashed$pw2" }

/-- Witness for C3 at concrete inputs for all four operations. -/
theorem create_user_password_spec_witness :
    phoneRegexMatch "09123456789" = true ∧
    ("a@b.com" : String) ≠ "" ∧
    (c3User.password ≠ "pw" ∧ check_password "pw" c3User.password = true ∧
     isHashed c3User.password = true ∧ (DB.mk [c3User]).allHashed) ∧
    (DB.mk [c3Super]).allHashed ∧
    (DB.mk [c3FormUser]).allHashed ∧
    (DB.mk [{ c3User with name := "n2", last_login := some 1 }]).allHashed := by
  have T := create_user_password_spec
    ⟨[]⟩ 0 "a@b.com" "pw" "n" "09123456789" c3User ⟨[c3User]⟩
    ⟨[]⟩ 0 "c@d.com" "x" ⟨some "m", some "09111111111", none, none, none⟩
    c3Super ⟨[c3Super]⟩
    ⟨[]⟩ 0 ⟨"e@f.com", "k", "09222222222", "pw2", "pw2"⟩ true
    c3FormUser ⟨[c3FormUser]⟩
    ⟨[c3User]⟩ 1 0 ⟨"a@b.com", "n2", "09123456789", true, false, false⟩
    ⟨[{ c3User with name := "n2", last_login := some 1 }]⟩
  refine ⟨by decide, by decide,
    T.1 (by decide) (by decide) (by rfl) (by simp [DB.allHashed]),
    T.2.1 (by rfl) (by simp [DB.allHashed]),
    T.2.2.1 (by rfl) (by simp [DB.allHashed]),
    T.2.2.2 (by rfl) ?_⟩
  intro v hv
  rw [List.mem_singleton.mp hv]
  decide

/-! ### C7: `last_login` is overwritten by every save, not only by login -/

def c7User : CustomUser :=
  { name := "n", email := "a@b.com", phone := "09123456789",
    date_joined := 0, last_login := some 5, password := "hashed$x" }

/-- C7 (divergence witness): an admin change-form save at time 9 that edits
only the name overwrites `last_login` (5 becomes 9), because the model
declares the field `auto_now=True`, which stamps every save — contradicting
the model's own docstring (`Automatically updated when the user logs in`)
and the spec's lifecycle claim. -/
theorem last_login_overwritten_by_admin_edit :
    c7User.last_login = some 5 ∧
    changeForm_save ⟨[c7User]⟩ 9 0
        ⟨"a@b.com", "n", "09123456789", true, false, false⟩ =
      .ok ⟨[{ c7User with last_login := some 9 }]⟩ :=
  ⟨rfl, rfl⟩

/-! ### Helper lemmas about email normalization -/

theorem splitLastAmp_of_not_mem : ∀ (l : List Char), '@' ∉ l → splitLastAmp l = none
  | [], _ => rfl
  | c :: cs, h => by
      have hc : ¬(c = '@') := fun he => h (he ▸ List.mem_cons_self c cs)
      have hcs : '@' ∉ cs := fun hm => h (List.mem_cons_of_mem c hm)
      simp only [splitLastAmp, splitLastAmp_of_not_mem cs hcs]
      rw [if_neg hc]

theorem splitLastAmp_append (r : List Char) (hr : '@' ∉ r) :
    ∀ (l : List Char), splitLastAmp (l ++ '@' :: r) = some (l, r)
  | [] => by
      simp [splitLastAmp, splitLastAmp_of_not_mem r hr]
  | c :: cs => by
      have ih := splitLastAmp_append r hr cs
      simp [splitLastAmp, ih]

theorem normalize_email_split (lpart dpart : String)
    (hat : '@' ∉ dpart.data)
    (hstrip : stripChars (lpart ++ "@" ++ dpart).data =
      (lpart ++ "@" ++ dpart).data) :
    normalize_email (lpart ++ "@" ++ dpart) = lpart ++ "@" ++ lowerStr dpart := by
  have hdata : (lpart ++ "@" ++ dpart).data = lpart.data ++ '@' :: dpart.data := by
    rw [String.data_append, String.data_append]
    simp
  simp only [normalize_email]
  rw [hstrip, hdata, splitLastAmp_append dpart.data hat lpart.data]
  show (⟨lpart.data ++ '@' :: dpart.data.map Char.toLower⟩ : String) =
    lpart ++ "@" ++ lowerStr dpart
  apply String.ext
  rw [String.data_append, String.data_append]
  simp [lowerStr]

/-! ### C5: duplicate creation for case variants of an email -/

def c5First : Except Err (CustomUser × DB) :=
  create_user ⟨[]⟩ 0 "A@b.com" "x" ⟨some "n", some "09123456789", none, none, none⟩

def c5Second : Except Err (CustomUser × DB) :=
  match c5First with
  | .ok (_, db) =>
      create_user db 1 "a@b.com" "y" ⟨some "m", some "09123456780", none, none, none⟩
  | .error e => .error e

/-- C5 (counterexample): two successive `create_user` calls whose emails are
case variants of each other in the LOCAL part (`A@b.com` then `a@b.com`)
both succeed — normalization lower-cases only the domain, so the stored
emails differ and no uniqueness error is raised on the second call. -/
theorem create_user_case_variant_counterexample :
    c5First.isOk = true ∧ c5Second.isOk = true :=
  ⟨rfl, rfl⟩

/-- C5 (amended): a second `create_user` whose email NORMALIZES to the same
stored email as an already persisted one (in particular any case variant of
the domain part) fails with the uniqueness error. -/
theorem create_user_duplicate_email_spec (db db' : DB) (now now' : Nat)
    (e1 e2 p1 p2 : String) (ex1 ex2 : ExtraFields) (u : CustomUser)
    (hnorm : normalize_email e1 = normalize_email e2) (he2 : e2 ≠ "")
    (h1 : create_user db now e1 p1 ex1 = .ok (u, db')) :
    create_user db' now' e2 p2 ex2 = .error .uniqueEmail := by
  obtain ⟨_, hu, hdb, _⟩ := create_user_ok h1
  have hmem : u ∈ db'.users := by
    rw [hdb]
    simp
  have hany : (db'.users.any fun v => v.email == normalize_email e2) = true := by
    apply List.any_eq_true.mpr
    refine ⟨u, hmem, ?_⟩
    rw [hu]
    simp [hnorm]
  simp [create_user, DB.insert, he2, hany, newUser, set_password]

def c5wUser : CustomUser :=
  { name := "n", email := "a@b.com", phone := "09123456789",
    date_joined := 0, last_login := some 0, password := "hashed$x" }

/-- Witness for the amended C5 at a concrete input: `a@B.com` then
`a@b.COM` normalize to the same stored email, and the second call fails
with the uniqueness error. -/
theorem create_user_duplicate_email_spec_witness :
    normalize_email "a@B.com" = normalize_email "a@b.COM" ∧
    ("a@b.COM" : String) ≠ "" ∧
    create_user ⟨[]⟩ 0 "a@B.com" "x"
      ⟨some "n", some "09123456789", none, none, none⟩ =
      .ok (c5wUser, ⟨[c5wUser]⟩) ∧
    create_user ⟨[c5wUser]⟩ 1 "a@b.COM" "y"
      ⟨some "m", some "09123456780", none, none, none⟩ =
      .error .uniqueEmail :=
  ⟨by rfl, by decide, by rfl,
   create_user_duplicate_email_spec ⟨[]⟩ ⟨[c5wUser]⟩ 0 1 "a@B.com" "a@b.COM"
     "x" "y" ⟨some "n", some "09123456789", none, none, none⟩
     ⟨some "m", some "09123456780", none, none, none⟩ c5wUser
     (by rfl) (by decide) (by rfl)⟩

/-! ### C6: email normalization case-folds exactly the domain part -/

/-- C6: for an email of the form `local@domain` (the separator being the
last `'@'`, no surrounding whitespace), a successful `create_user` persists
the email with the domain part lower-cased and the local part unchanged. -/
theorem create_user_email_normalization (db : DB) (now : Nat)
    (lpart dpart password : String) (extra : ExtraFields)
    (u : CustomUser) (db' : DB)
    (hat : '@' ∉ dpart.data)
    (hstrip : stripChars (lpart ++ "@" ++ dpart).data =
      (lpart ++ "@" ++ dpart).data)
    (h : create_user db now (lpart ++ "@" ++ dpart) password extra =
      .ok (u, db')) :
    u.email = lpart ++ "@" ++ lowerStr dpart ∧ u ∈ db'.users := by
  obtain ⟨_, hu, hdb, _⟩ := create_user_ok h
  constructor
  · rw [hu]
    exact normalize_email_split lpart dpart hat hstrip
  · rw [hdb]
    simp

def c6User : CustomUser :=
  { name := "n", email := "Ab@cd.com", phone := "09123456789",
    date_joined := 0, last_login := some 0, password := "hashed$x" }

/-- Witness for C6 at a concrete input: `Ab@Cd.Com` is stored as
`Ab@cd.com` — domain folded, local part untouched. -/
theorem create_user_email_normalization_witness :
    '@' ∉ ("Cd.Com" : String).data ∧
    stripChars (("Ab" : String) ++ "@" ++ "Cd.Com").data =
      (("Ab" : String) ++ "@" ++ "Cd.Com").data ∧
    create_user ⟨[]⟩ 0 (("Ab" : String) ++ "@" ++ "Cd.Com") "x"
      ⟨some "n", some "09123456789", none, none, none⟩ =
      .ok (c6User, ⟨[c6User]⟩) ∧
    (c6User.email = ("Ab" : String) ++ "@" ++ lowerStr "Cd.Com" ∧
     c6User ∈ (DB.mk [c6User]).users) :=
  ⟨by decide, by decide, by rfl,
   create_user_email_normalization ⟨[]⟩ 0 "Ab" "Cd.Com" "x"
     ⟨some "n", some "09123456789", none, none, none⟩ c6User ⟨[c6User]⟩
     (by decide) (by decide) (by rfl)⟩

/-! ### C8: creation form save -/

theorem insert_isOk {db : DB} {now : Nat} {u : CustomUser}
    (he : db.users.any (fun v => v.email == u.email) = false)
    (hp : db.users.any (fun v => v.phone == u.phone) = false) :
    db.insert now u = .ok ({ u with last_login := some now },
      ⟨db.users ++ [{ u with last_login := some now }]⟩) := by
  rw [DB.insert, if_neg (by simp [he]), if_neg (by simp [hp])]

/-- C8: for validated creation-form input, save copies the cleaned `name`
and `phone` onto the constructed entity; with `commit = true` it persists
the entity (appending it to the table — validation guarantees the save
succeeds) and with `commit = false` it leaves the table untouched; the
entity is returned in both cases. -/
theorem creationForm_save_spec (db : DB) (now : Nat) (i : CreationInput)
    (u u2 : CustomUser) (db' db2' : DB)
    (hvalid : creationFormValid db i = true) :
    (creationForm_save db now i true = .ok (u, db') →
      u.name = i.name ∧ u.phone = i.phone ∧ db'.users = db.users ++ [u]) ∧
    (creationForm_save db now i true).isOk = true ∧
    (creationForm_save db now i false = .ok (u2, db2') →
      u2.name = i.name ∧ u2.phone = i.phone ∧ db2' = db) := by
  simp only [creationFormValid, Bool.and_eq_true] at hvalid
  obtain ⟨⟨⟨⟨⟨⟨h1, h2⟩, h3⟩, h4⟩, h5⟩, h6⟩, h7⟩ := hvalid
  have hae : db.users.any (fun v => v.email == i.email) = false := by
    simpa using h6
  have hap : db.users.any (fun v => v.phone == i.phone) = false := by
    simpa using h7
  refine ⟨?_, ?_, ?_⟩
  · intro h
    have h' : db.insert now
        { name := i.name, email := i.email, phone := i.phone,
          is_staff := false, is_active := true, is_superuser := false,
          date_joined := now, last_login := none,
          password := make_password i.password1 } = .ok (u, db') := h
    obtain ⟨hu, hdb, _⟩ := insert_ok h'
    subst hu
    exact ⟨rfl, rfl, hdb⟩
  · have h' : creationForm_save db now i true = _ := insert_isOk hae hap
    rw [h']
    rfl
  · intro h
    have h' : Except.ok (ε := Err)
        (({ name := i.name, email := i.email, phone := i.phone,
            is_staff := false, is_active := true, is_superuser := false,
            date_joined := now, last_login := none,
            password := make_password i.password1 } : CustomUser), db) =
        .ok (u2, db2') := h
    simp only [Except.ok.injEq, Prod.mk.injEq] at h'
    obtain ⟨hu, hdb⟩ := h'
    subst hdb
    rw [← hu]
    exact ⟨rfl, rfl, rfl⟩

def c8User : CustomUser :=
  { name := "k", email := "e@f.com", phone := "09222222222",
    date_joined := 0, last_login := some 0, password := "hashed$pw" }

def c8Unsaved : CustomUser :=
  { name := "k", email := "e@f.com", phone := "09222222222",
    date_joined := 0, last_login := none, password := "hashed$pw" }

/-- Witness for C8 at a concrete validated input. -/
theorem creationForm_save_spec_witness :
    creationFormValid ⟨[]⟩ ⟨"e@f.com", "k", "09222222222", "pw", "pw"⟩ = true ∧
    (creationForm_save ⟨[]⟩ 0 ⟨"e@f.com", "k", "09222222222", "pw", "pw"⟩ true =
      .ok (c8User, ⟨[c8User]⟩)) ∧
    (c8User.name = "k" ∧ c8User.phone = "09222222222" ∧
     (DB.mk [c8User]).users = (DB.mk []).users ++ [c8User]) ∧
    (creationForm_save ⟨[]⟩ 0 ⟨"e@f.com", "k", "09222222222", "pw", "pw"⟩ true).isOk = true ∧
    (c8Unsaved.name = "k" ∧ c8Unsaved.phone = "09222222222" ∧
     (DB.mk []) = (DB.mk [])) := by
  have T := creationForm_save_spec ⟨[]⟩ 0
    ⟨"e@f.com", "k", "09222222222", "pw", "pw"⟩ c8User c8Unsaved
    ⟨[c8User]⟩ ⟨[]⟩ (by decide)
  exact ⟨by decide, by rfl, T.1 (by rfl), T.2.1, T.2.2 (by rfl)⟩

/-! ### C9: fields of the change form -/

/-- C9 (counterexample): the change form's field list is not exactly
email, name, phone and the three permission flags — it also contains
`user_permissions`. -/
theorem changeForm_fields_counterexample :
    ("user_permissions" ∈ customUserChangeForm_fields) ∧
    ¬("user_permissions" ∈
      ["email", "name", "phone", "is_active", "is_staff", "is_superuser"]) := by
  decide

/-- C9 (amended): the change form accepts exactly email, name, phone, the
three permission flags, and additionally `user_permissions`; saving edits
the bound row in place — the row count is unchanged, row `idx` receives the
cleaned data (plus the `auto_now` stamp), and every other row is
untouched. -/
theorem changeForm_spec (db : DB) (now idx j : Nat) (i : ChangeInput)
    (db' : DB) (hidx : idx < db.users.length)
    (h : changeForm_save db now idx i = .ok db') :
    customUserChangeForm_fields =
      ["email", "name", "phone", "is_active", "is_staff", "is_superuser"] ++
        ["user_permissions"] ∧
    db'.users.length = db.users.length ∧
    db'.users[idx]? = some { changeForm_apply (db.users.getD idx default) i
      with last_login := some now } ∧
    (j ≠ idx → db'.users[j]? = db.users[j]?) := by
  obtain ⟨husers, _⟩ := updateAt_ok h
  refine ⟨rfl, ?_, ?_, ?_⟩
  · rw [husers, List.length_set]
  · rw [husers]
    exact List.getElem?_set_eq_of_lt _ hidx
  · intro hj
    rw [husers]
    exact List.getElem?_set_ne (fun he => hj he.symm)

def c9a : CustomUser :=
  { name := "a", email := "a@x.com", phone := "09000000001",
    date_joined := 0, last_login := some 0, password := "hashed$a" }

def c9b : CustomUser :=
  { name := "b", email := "b@x.com", phone := "09000000002",
    date_joined := 0, last_login := some 0, password := "hashed$b" }

/-- Witness for the amended C9 at a concrete two-row table: editing row 0
renames it in place and leaves row 1 untouched. -/
theorem changeForm_spec_witness :
    (0 < (DB.mk [c9a, c9b]).users.length) ∧
    changeForm_save ⟨[c9a, c9b]⟩ 7 0
        ⟨"a@x.com", "a2", "09000000001", true, false, false⟩ =
      .ok ⟨[{ c9a with name := "a2", last_login := some 7 }, c9b]⟩ ∧
    (customUserChangeForm_fields =
      ["email", "name", "phone", "is_active", "is_staff", "is_superuser"] ++
        ["user_permissions"] ∧
     (DB.mk [{ c9a with name := "a2", last_login := some 7 }, c9b]).users.length =
       (DB.mk [c9a, c9b]).users.length ∧
     (DB.mk [{ c9a with name := "a2", last_login := some 7 }, c9b]).users[0]? =
       some { changeForm_apply ((DB.mk [c9a, c9b]).users.getD 0 default)
           ⟨"a@x.com", "a2", "09000000001", true, false, false⟩
         with last_login := some 7 } ∧
     (1 ≠ 0 →
       (DB.mk [{ c9a with name := "a2", last_login := some 7 }, c9b]).users[1]? =
         (DB.mk [c9a, c9b]).users[1]?)) :=
  ⟨by decide, by rfl,
   changeForm_spec ⟨[c9a, c9b]⟩ 7 0 1
     ⟨"a@x.com", "a2", "09000000001", true, false, false⟩
     ⟨[{ c9a with name := "a2", last_login := some 7 }, c9b]⟩
     (by decide) (by rfl)⟩

/-! ### C4: the persisted-table invariants -/

theorem phoneRegexMatch_ne_empty {s : String} (h : phoneRegexMatch s = true) :
    s ≠ "" := by
  intro he
  subst he
  simp [phoneRegexMatch] at h

theorem nodup_append_singleton {α β : Type} (f : α → β) (l : List α) (x : α)
    (hl : (l.map f).Nodup) (hx : ∀ v ∈ l, f v ≠ f x) :
    ((l ++ [x]).map f).Nodup := by
  rw [List.map_append, List.nodup_append]
  refine ⟨hl, List.nodup_singleton _, ?_⟩
  intro a ha hb
  rw [List.map_singleton, List.mem_singleton] at hb
  obtain ⟨v, hv, hva⟩ := List.mem_map.mp ha
  exact hx v hv (hva.trans hb)

theorem insert_uniqueInv {db : DB} {now : Nat} {u u' : CustomUser} {db' : DB}
    (h : db.insert now u = .ok (u', db')) (hdb : db.uniqueInv) :
    db'.uniqueInv := by
  obtain ⟨hu', husers, hne⟩ := insert_ok h
  subst hu'
  constructor
  · rw [husers]
    exact nodup_append_singleton _ _ _ hdb.1 (fun v hv => (hne v hv).1)
  · rw [husers]
    exact nodup_append_singleton _ _ _ hdb.2 (fun v hv => (hne v hv).2)

theorem updateAt_uniqueInv {db : DB} {now idx : Nat} {u : CustomUser}
    {db' : DB} (h : db.updateAt now idx u = .ok db') (hdb : db.uniqueInv) :
    db'.uniqueInv := by
  obtain ⟨husers, hne⟩ := updateAt_ok h
  constructor
  · rw [husers, List.map_set]
    apply nodup_set_of_not_mem_eraseIdx _ _ _ hdb.1
    rw [← map_eraseIdx_comm]
    intro hmem
    obtain ⟨v, hv, hva⟩ := List.mem_map.mp hmem
    exact (hne v hv).1 hva
  · rw [husers, List.map_set]
    apply nodup_set_of_not_mem_eraseIdx _ _ _ hdb.2
    rw [← map_eraseIdx_comm]
    intro hmem
    obtain ⟨v, hv, hva⟩ := List.mem_map.mp hmem
    exact (hne v hv).2 hva

theorem create_user_uniqueInv {db : DB} {now : Nat} {email password : String}
    {extra : ExtraFields} {u : CustomUser} {db' : DB}
    (h : create_user db now email password extra = .ok (u, db'))
    (hdb : db.uniqueInv) : db'.uniqueInv := by
  by_cases he : email = ""
  · rw [create_user, if_pos he] at h
    exact Except.noConfusion h
  · rw [create_user, if_neg he] at h
    exact insert_uniqueInv h hdb

theorem create_superuser_uniqueInv {db : DB} {now : Nat}
    {email password : String} {extra : ExtraFields} {u : CustomUser} {db' : DB}
    (h : create_superuser db now email password extra = .ok (u, db'))
    (hdb : db.uniqueInv) : db'.uniqueInv := by
  simp only [create_superuser] at h
  split at h
  · exact Except.noConfusion h
  · split at h
    · exact Except.noConfusion h
    · exact create_user_uniqueInv h hdb

theorem creationForm_save_uniqueInv {db : DB} {now : Nat} {i : CreationInput}
    {c : Bool} {u : CustomUser} {db' : DB}
    (h : creationForm_save db now i c = .ok (u, db'))
    (hdb : db.uniqueInv) : db'.uniqueInv := by
  cases c with
  | false =>
    simp only [creationForm_save, Bool.false_eq_true, if_false,
      Except.ok.injEq, Prod.mk.injEq] at h
    rw [← h.2]
    exact hdb
  | true =>
    simp only [creationForm_save, if_true] at h
    exact insert_uniqueInv h hdb

theorem changeForm_save_uniqueInv {db : DB} {now idx : Nat} {i : ChangeInput}
    {db' : DB} (h : changeForm_save db now idx i = .ok db')
    (hdb : db.uniqueInv) : db'.uniqueInv :=
  updateAt_uniqueInv h hdb

theorem creationForm_save_phoneInv {db : DB} {now : Nat} {i : CreationInput}
    {c : Bool} {u : CustomUser} {db' : DB}
    (hvalid : creationFormValid db i = true)
    (h : creationForm_save db now i c = .ok (u, db'))
    (hdb : db.phoneInv) : db'.phoneInv := by
  have hre : phoneRegexMatch i.phone = true := by
    simp only [creationFormValid, Bool.and_eq_true] at hvalid
    exact hvalid.1.1.1.1.2
  cases c with
  | false =>
    simp only [creationForm_save, Bool.false_eq_true, if_false,
      Except.ok.injEq, Prod.mk.injEq] at h
    rw [← h.2]
    exact hdb
  | true =>
    simp only [creationForm_save, if_true] at h
    obtain ⟨hu', husers, _⟩ := insert_ok h
    subst hu'
    intro v hv
    rw [husers] at hv
    rcases List.mem_append.mp hv with hv | hv
    · exact hdb v hv
    · rw [List.mem_singleton.mp hv]
      exact ⟨hre, phoneRegexMatch_ne_empty hre⟩

theorem changeForm_save_phoneInv {db : DB} {now idx : Nat} {i : ChangeInput}
    {db' : DB} (hvalid : changeFormValid db idx i = true)
    (h : changeForm_save db now idx i = .ok db')
    (hdb : db.phoneInv) : db'.phoneInv := by
  have hre : phoneRegexMatch i.phone = true := by
    simp only [changeFormValid, Bool.and_eq_true] at hvalid
    exact hvalid.1.1.2
  obtain ⟨husers, _⟩ := updateAt_ok h
  intro v hv
  rw [husers] at hv
  rcases mem_set_cases _ _ _ _ hv with ⟨_, he⟩ | hm
  · rw [he]
    exact ⟨hre, phoneRegexMatch_ne_empty hre⟩
  · exact hdb v hm

/-- C4 (counterexample): the manager's `create_user` runs no field
validation, so a direct call persists a phone that violates `^09\d{9}$`. -/
theorem phone_invariant_counterexample :
    (create_user ⟨[]⟩ 0 "a@b.com" "x"
        ⟨some "n", some "12345678901", none, none, none⟩).toOption.map
      (fun p => p.2.users.map (fun v => phoneRegexMatch v.phone)) =
      some [false] := by
  rfl

/-- C4 (amended): email and phone uniqueness is a storage-level invariant
preserved by every creation and edit path (`create_user`,
`create_superuser`, creation form save, change form save); the phone-format
and non-emptiness invariant is preserved by the two form paths (which run
field validation) but NOT by the manager paths, which persist whatever
phone the caller passes. -/
theorem user_invariants_spec (db : DB) (now : Nat) (email password : String)
    (extra : ExtraFields) (u : CustomUser) (db' : DB)
    (dbS : DB) (nowS : Nat) (eS pS : String) (exS : ExtraFields)
    (uS : CustomUser) (dbS' : DB)
    (dbF : DB) (nowF : Nat) (iF : CreationInput) (cF : Bool)
    (uF : CustomUser) (dbF' : DB)
    (dbC : DB) (nowC idxC : Nat) (iC : ChangeInput) (dbC' : DB) :
    (create_user db now email password extra = .ok (u, db') →
      db.uniqueInv → db'.uniqueInv) ∧
    (create_superuser dbS nowS eS pS exS = .ok (uS, dbS') →
      dbS.uniqueInv → dbS'.uniqueInv) ∧
    (creationForm_save dbF nowF iF cF = .ok (uF, dbF') →
      dbF.uniqueInv → dbF'.uniqueInv) ∧
    (changeForm_save dbC nowC idxC iC = .ok dbC' →
      dbC.uniqueInv → dbC'.uniqueInv) ∧
    (creationFormValid dbF iF = true →
      creationForm_save dbF nowF iF cF = .ok (uF, dbF') →
      dbF.phoneInv → dbF'.phoneInv) ∧
    (changeFormValid dbC idxC iC = true →
      changeForm_save dbC nowC idxC iC = .ok dbC' →
      dbC.phoneInv → dbC'.phoneInv) :=
  ⟨fun h hdb => create_user_uniqueInv h hdb,
   fun h hdb => create_superuser_uniqueInv h hdb,
   fun h hdb => creationForm_save_uniqueInv h hdb,
   fun h hdb => changeForm_save_uniqueInv h hdb,
   fun hv h hdb => creationForm_save_phoneInv hv h hdb,
   fun hv h hdb => changeForm_save_phoneInv hv h hdb⟩

def c4User : CustomUser :=
  { name := "n", email := "a@b.com", phone := "09123456789",
    date_joined := 0, last_login := some 0, password := "hashed$x" }

def c4Super : CustomUser :=
  { name := "m", email := "c@d.com", phone := "09111111111",
    is_staff := true, is_active := true, is_superuser := true,
    date_joined := 0, last_login := some 0, password := "hashed$x" }

def c4Form : CustomUser :=
  { name := "k", email := "e@f.com", phone := "09222222222",
    date_joined := 0, last_login := some 0, password := "hashed$pw" }

/-- Witness for the amended C4 at concrete inputs for all four paths. -/
theorem user_invariants_spec_witness :
    (DB.mk [c4User]).uniqueInv ∧
    (DB.mk [c4Super]).uniqueInv ∧
    (DB.mk [c4Form]).uniqueInv ∧
    (DB.mk [{ c4User with name := "n2", last_login := some 1 }]).uniqueInv ∧
    (DB.mk [c4Form]).phoneInv ∧
    (DB.mk [{ c4User with name := "n2", last_login := some 1 }]).phoneInv := by
  have T := user_invariants_spec
    ⟨[]⟩ 0 "a@b.com" "x" ⟨some "n", some "09123456789", none, none, none⟩
    c4User ⟨[c4User]⟩
    ⟨[]⟩ 0 "c@d.com" "x" ⟨some "m", some "09111111111", none, none, none⟩
    c4Super ⟨[c4Super]⟩
    ⟨[]⟩ 0 ⟨"e@f.com", "k", "09222222222", "pw", "pw"⟩ true c4Form ⟨[c4Form]⟩
    ⟨[c4User]⟩ 1 0 ⟨"a@b.com", "n2", "09123456789", true, false, false⟩
    ⟨[{ c4User with name := "n2", last_login := some 1 }]⟩
  refine ⟨T.1 (by rfl) (by simp [DB.uniqueInv]),
    T.2.1 (by rfl) (by simp [DB.uniqueInv]),
    T.2.2.1 (by rfl) (by simp [DB.uniqueInv]),
    T.2.2.2.1 (by rfl) (by simp [DB.uniqueInv]), ?_, ?_⟩
  · refine T.2.2.2.2.1 (by decide) (by rfl) ?_
    intro v hv
    simp at hv
  · refine T.2.2.2.2.2 (by decide) (by rfl) ?_
    intro v hv
    rw [List.mem_singleton.mp hv]
    exact ⟨by decide, by decide⟩
